import Mathlib

/-!
Verification development for the ValueFromLog repository.

The embedding covers:
* `src/domain/models.py` — the record types and
  `MergedLogDataset.build_merged_dataset`, the temporal-attribute matcher
  built on `pandas.merge_asof`;
* `src/infrastructure/cache.py` — `build_cache_key`, `cache_paths`,
  `load_cached`, `store_cache`;
* `src/application/use_cases.py`, `src/infrastructure/excel_repository.py`,
  `src/interface/notebook.py` — the fetch entry points.

Modelling conventions:
* timestamps are UTC instants in whole seconds (`Int`); `pd.to_datetime`
  conversion is the identity on this typed model;
* a pandas `DataFrame` of one of the two log sheets is a `List` of typed
  rows (one structure field per column; a missing/NaN cell of an optional
  column is `none`);
* `pd.util.hash_pandas_object` on the 8 null-normalized key columns is an
  unspecified deterministic function `hk : MatchKey → Nat`; theorems that
  need collision-freeness state it as an explicit hypothesis;
* fallible code returns `Except`; the pandas errors that
  `build_merged_dataset` can surface are the constructors of `MergeError`.
-/

namespace ValueFromLog

/-- Row of the operation log (`OperationRecord` in `src/domain/models.py`,
equivalently a row of the `機器遠隔操作履歴` sheet with the
`DEFAULT_OPERATION_COLS` columns). -/
structure OperationRecord where
  contract_id : String
  order_receipt_date : Int
  timer_div : Option String
  floor_code : Option String
  room_name : Option String
  equipment_type_id : Option String
  equipment_name : Option String
  property_code : Option String
  property_name : Option String
  property_value : Option String
deriving DecidableEq, Repr

/-- Row of the status-change log (`StateChangeRecord` in
`src/domain/models.py`). -/
structure StateChangeRecord where
  message_name : Option String
  contract_id : String
  reported_date : Int
  floor_code : Option String
  room_name : Option String
  equipment_type_id : Option String
  equipment_name : Option String
  property_code1 : Option String
  property_name1 : Option String
  property_value1 : Option String
deriving DecidableEq, Repr

/-- Row of the DataFrame returned by
`MergedLogDataset.build_merged_dataset` (columns `cols_front` of
`models.py` plus the surviving status-side column `MessageName`; the
duplicated raw columns `PropertyCode1/PropertyName1/PropertyValue1` are
identical to `property_code/property_name/property_value` and are not
repeated here). -/
structure MergedRow where
  contract_id : String
  reported_date : Int
  order_receipt_date : Option Int
  time_diff_seconds : Option Nat
  is_remote_operation : Bool
  floor_code : Option String
  room_name : Option String
  equipment_type_id : Option String
  equipment_name : Option String
  property_code : Option String
  property_name : Option String
  property_value : Option String
  message_name : Option String
deriving DecidableEq, Repr

/-- Composite grouping key: the `key_cols` of `build_merged_dataset`
(`ContractId, FloorCode, RoomName, EquipmentTypeId, EquipmentName,
PropertyCode1, PropertyName1, PropertyValue1`) after `fillna("")`. -/
structure MatchKey where
  contractId : String
  floorCode : String
  roomName : String
  equipmentTypeId : String
  equipmentName : String
  propertyCode1 : String
  propertyName1 : String
  propertyValue1 : String
deriving DecidableEq, Repr

/-- Null normalization `fillna("")` of one key cell. -/
def normCell (v : Option String) : String := v.getD ""

/-- Key of an operation row (after the `PropertyCode → PropertyCode1`
renames of `build_merged_dataset`). -/
def OperationRecord.matchKey (o : OperationRecord) : MatchKey :=
  ⟨o.contract_id, normCell o.floor_code, normCell o.room_name,
   normCell o.equipment_type_id, normCell o.equipment_name,
   normCell o.property_code, normCell o.property_name,
   normCell o.property_value⟩

/-- Key of a status-change row. -/
def StateChangeRecord.matchKey (s : StateChangeRecord) : MatchKey :=
  ⟨s.contract_id, normCell s.floor_code, normCell s.room_name,
   normCell s.equipment_type_id, normCell s.equipment_name,
   normCell s.property_code1, normCell s.property_name1,
   normCell s.property_value1⟩

/-- Composite key reconstructed from an output row's carried status-side
attributes (every key column of the output comes from the status side). -/
def MergedRow.matchKey (r : MergedRow) : MatchKey :=
  ⟨r.contract_id, normCell r.floor_code, normCell r.room_name,
   normCell r.equipment_type_id, normCell r.equipment_name,
   normCell r.property_code, normCell r.property_name,
   normCell r.property_value⟩

/-- Component `i` of the composite key, in `key_cols` order. -/
def MatchKey.component (k : MatchKey) : Fin 8 → String
  | 0 => k.contractId
  | 1 => k.floorCode
  | 2 => k.roomName
  | 3 => k.equipmentTypeId
  | 4 => k.equipmentName
  | 5 => k.propertyCode1
  | 6 => k.propertyName1
  | 7 => k.propertyValue1

/-- Errors raised out of `build_merged_dataset` by `pandas.merge_asof`:
`MergeError("tolerance must be positive")` from the tolerance validation
(checked while the merge operation is constructed, before the join runs),
and `ValueError("left/right keys must be sorted")` from the global
monotonicity check of the `on` column (left side checked first). -/
inductive MergeError where
  | toleranceMustBePositive
  | leftKeysMustBeSorted
  | rightKeysMustBeSorted
deriving DecidableEq, Repr

/-- Tolerance resolution of `build_merged_dataset` lines 222-226:
an explicit `tolerance_minutes` argument wins; otherwise the
`MERGE_TOLERANCE_MINUTES` environment variable (`none` models unset or
empty); otherwise 5. -/
def resolveToleranceMinutes (tolerance_minutes envTolerance : Option Int) : Int :=
  match tolerance_minutes with
  | some t => t
  | none => match envTolerance with
    | some e => e
    | none => 5

/-- Absolute difference of two instants, in seconds. -/
def absDiff (a b : Int) : Nat := (a - b).natAbs

/-- Strict comparison used while scanning asof candidates: `cand` beats
`best` if it is strictly nearer to `ts`, or equally near with an earlier
timestamp (`merge_asof` `direction="nearest"` resolves equal backward and
forward differences in favour of the backward, i.e. earlier, candidate). -/
def nearerThan (ts cand best : Int) : Bool :=
  absDiff cand ts < absDiff best ts ||
    (absDiff cand ts == absDiff best ts && cand < best)

/-- Timestamp selected by the nearest-candidate scan: the minimum of the
list under the lexicographic measure (distance to `ts`, then the
timestamp itself); `none` iff there is no candidate. -/
def pickNearest (ts : Int) : List Int → Option Int
  | [] => none
  | t :: rest =>
      some (rest.foldl (fun best c => if nearerThan ts c best then c else best) t)

/-- Unmatched output row for status row `s`: `OrderReceiptDate` is NaT, so
`is_remote_operation` is false and `time_diff_seconds` is set to null by
line 283 of `models.py`. -/
def unmatchedRow (s : StateChangeRecord) : MergedRow :=
  { contract_id := s.contract_id
    reported_date := s.reported_date
    order_receipt_date := none
    time_diff_seconds := none
    is_remote_operation := false
    floor_code := s.floor_code
    room_name := s.room_name
    equipment_type_id := s.equipment_type_id
    equipment_name := s.equipment_name
    property_code := s.property_code1
    property_name := s.property_name1
    property_value := s.property_value1
    message_name := s.message_name }

/-- Outcome of `merge_asof(..., by="_k", direction="nearest", tolerance=tol)`
for one status row `s`, given the hash function `hk` and the operation
rows: among operation rows in the same `_k` group, take the timestamp
nearest to `s.reported_date` (ties to the earlier timestamp); the match
stands iff its distance is within `tolSec` seconds.  Only the matched
timestamp survives into the output (every other operation-side column is
dropped by the `_op`-suffix cleanup), so the choice among equal-timestamp
candidates does not affect the output row.  `candidateTimes` lists the
operation timestamps of the status row's `_k` group. -/
def candidateTimes (hk : MatchKey → Nat) (opRows : List OperationRecord)
    (s : StateChangeRecord) : List Int :=
  (opRows.filter (fun o => hk o.matchKey == hk s.matchKey)).map
    (·.order_receipt_date)

/-- Output row produced for status row `s` by the asof match. -/
def matchStatus (hk : MatchKey → Nat) (tolSec : Nat)
    (opRows : List OperationRecord) (s : StateChangeRecord) : MergedRow :=
  match pickNearest s.reported_date (candidateTimes hk opRows s) with
  | none => unmatchedRow s
  | some t =>
      if absDiff s.reported_date t ≤ tolSec then
        { unmatchedRow s with
            order_receipt_date := some t
            time_diff_seconds := some (absDiff s.reported_date t)
            is_remote_operation := true }
      else unmatchedRow s

/-- Sort relation of `sort_values(["_k", <time>])`: lexicographic on the
hash of the key, then the timestamp. -/
def hashTimeLe (hk : MatchKey → Nat) (key : ρ → MatchKey) (time : ρ → Int)
    (a b : ρ) : Prop :=
  hk (key a) < hk (key b) ∨ (hk (key a) = hk (key b) ∧ time a ≤ time b)

instance (hk : MatchKey → Nat) (key : ρ → MatchKey) (time : ρ → Int) :
    DecidableRel (hashTimeLe hk key time) := fun _ _ =>
  inferInstanceAs (Decidable (_ ∨ _))

/-- The operation frame after `sort_values(["_k", "OrderReceiptDate"])`. -/
def opSortedOf (hk : MatchKey → Nat) (operation_df : List OperationRecord) :
    List OperationRecord :=
  List.insertionSort
    (hashTimeLe hk OperationRecord.matchKey (·.order_receipt_date)) operation_df

/-- The status frame after `sort_values(["_k", "ReportedDate"])`. -/
def stSortedOf (hk : MatchKey → Nat) (state_df : List StateChangeRecord) :
    List StateChangeRecord :=
  List.insertionSort
    (hashTimeLe hk StateChangeRecord.matchKey (·.reported_date)) state_df

/-- Computable form of `Index(values).is_monotonic_increasing`: the
sequence is non-decreasing. -/
def monotoneTimes : List Int → Bool
  | a :: b :: rest => decide (a ≤ b) && monotoneTimes (b :: rest)
  | _ => true

/-- Model of `MergedLogDataset.build_merged_dataset` (models.py 181-329).
`hk` stands for `pd.util.hash_pandas_object` on the null-normalized key
columns (deterministic, unspecified); `envTolerance` is the parsed
`MERGE_TOLERANCE_MINUTES` environment variable.  Steps, in source order:
resolve the tolerance; `merge_asof` validates `tolerance < 0` while being
constructed; both frames are sorted by `(_k, timestamp)`; `merge_asof`
then requires the `on` column of each side to be globally monotone
(left = status side first) and raises `ValueError("... keys must be
sorted")` otherwise; finally one output row per status row is emitted in
the sorted order, matched per `matchStatus`. -/
def build_merged_dataset (hk : MatchKey → Nat) (envTolerance : Option Int)
    (operation_df : List OperationRecord) (state_df : List StateChangeRecord)
    (tolerance_minutes : Option Int := none) :
    Except MergeError (List MergedRow) :=
  if resolveToleranceMinutes tolerance_minutes envTolerance < 0 then
    .error .toleranceMustBePositive
  else if ¬ monotoneTimes ((stSortedOf hk state_df).map (·.reported_date)) then
    .error .leftKeysMustBeSorted
  else if ¬ monotoneTimes ((opSortedOf hk operation_df).map (·.order_receipt_date)) then
    .error .rightKeysMustBeSorted
  else
    .ok ((stSortedOf hk state_df).map
      (matchStatus hk (resolveToleranceMinutes tolerance_minutes envTolerance * 60).toNat
        (opSortedOf hk operation_df)))

/-! Cache layer (`src/infrastructure/cache.py`). -/

/-- Rendering `str(pd.to_datetime(t))` used by `build_cache_key`: distinct
instants render as distinct strings (the wall time plus UTC offset shown
by pandas determines the instant), and no rendering collides with the
sentinel `"<end=latest>"`.  The concrete characters are irrelevant to
every claim, so the model uses a canonical injective rendering with a
leading sign character. -/
def pyStrTimestamp (t : Int) : String :=
  ⟨(if 0 ≤ t then '+' else '-') :: List.replicate t.natAbs 'x'⟩

/-- Byte string fed to the SHA-256 hasher by `build_cache_key`
(cache.py 49-59): the successive `hasher.update` payloads concatenated in
source order — `str(latest_path)`, `str(latest_path.stat().st_mtime_ns)`,
`",".join(operation_cols + state_cols)`, `",".join(sorted(contract_ids))`,
`str(pd.to_datetime(start_date))`, then `str(pd.to_datetime(end_date))`
or the literal `"<end=latest>"` when `end_date` is falsy (`None`).
The returned cache key is the SHA-256 hexdigest of this string; since the
digest is a fixed function of it, two calls agree on the key whenever
they agree on this string, and the claims are settled at this level. -/
def build_cache_key_input (latest_path : String) (mtime_ns : Nat)
    (operation_cols state_cols contract_ids : List String)
    (start_date : Int) (end_date : Option Int) : String :=
  latest_path ++ toString mtime_ns
    ++ String.intercalate "," (operation_cols ++ state_cols)
    ++ String.intercalate "," (List.insertionSort (· ≤ ·) contract_ids)
    ++ pyStrTimestamp start_date
    ++ (match end_date with
        | some e => pyStrTimestamp e
        | none => "<end=latest>")

/-- Cache directory relative to the installation root (cache.py 14-16). -/
def CACHE_DIR : String := ".cache"

/-- Model of `cache_paths` (cache.py 62-76): the cache key is a SHA-256
hexdigest, hence contains no `"."`, so `Path.with_suffix` appends the
suffixes. -/
def cache_paths (key : String) : String × String :=
  (CACHE_DIR ++ "/" ++ key ++ ".op.parquet",
   CACHE_DIR ++ "/" ++ key ++ ".state.parquet")

/-- State of one cache entry's pair of files as `load_cached` can observe
it: `none` means the file does not exist; `some (.error ())` means it
exists but `pd.read_parquet` raises on it (corruption); `some (.ok df)`
means it reads back as `df`. -/
structure CacheEntryFs where
  opFile : Option (Except Unit (List OperationRecord))
  stateFile : Option (Except Unit (List StateChangeRecord))

/-- Model of `load_cached` (cache.py 79-107), returning the value handed
to the caller together with the entry state it leaves behind.  If either
file is missing, return `None` leaving the files alone; otherwise read
the operation file then the status file inside one `try`; any read
failure is caught locally: both paths are unlinked (`OSError` from
`unlink` is swallowed, so deletion never fails in the model) and `None`
is returned.  No branch propagates an exception, which is why the model
is a total function. -/
def load_cached (fs : CacheEntryFs) :
    Option (List OperationRecord × List StateChangeRecord) × CacheEntryFs :=
  match fs.opFile, fs.stateFile with
  | some opRead, some stateRead =>
      match opRead, stateRead with
      | .ok op_df, .ok state_df => (some (op_df, state_df), fs)
      | _, _ => (none, ⟨none, none⟩)
  | _, _ => (none, fs)

/-- Content written to a cache file. -/
inductive CacheBlob where
  | opData (rows : List OperationRecord)
  | stateData (rows : List StateChangeRecord)
deriving DecidableEq, Repr

/-- Filesystem operation, as observable by a concurrent process. -/
inductive FsOp where
  | write (path : String) (content : CacheBlob)
  | rename (src dst : String)
deriving DecidableEq, Repr

/-- Whether a filesystem operation is a rename. -/
def FsOp.isRename : FsOp → Bool
  | .rename _ _ => true
  | _ => false

/-- Model of `store_cache` (cache.py 110-124) as the sequence of
filesystem operations it performs: `op_df.to_parquet(op_path)` then
`state_df.to_parquet(state_path)`, each an in-place write to the final
path (`DataFrame.to_parquet` opens and writes the named file directly). -/
def store_cache (key : String) (op_df : List OperationRecord)
    (state_df : List StateChangeRecord) : List FsOp :=
  [.write (cache_paths key).1 (.opData op_df),
   .write (cache_paths key).2 (.stateData state_df)]

/-- Filesystem content visible to a reader. -/
abbrev FsState := String → Option CacheBlob

/-- Effect of one filesystem operation. -/
def applyFsOp (st : FsState) : FsOp → FsState
  | .write p c => fun q => if q = p then some c else st q
  | .rename src dst => fun q =>
      if q = dst then st src else if q = src then none else st q

/-- Effect of a sequence of filesystem operations. -/
def applyFsOps (st : FsState) (ops : List FsOp) : FsState :=
  ops.foldl applyFsOp st

/-- Pair of cache files of entry `key` as a reader sees them. -/
def pairView (st : FsState) (key : String) :
    Option CacheBlob × Option CacheBlob :=
  (st (cache_paths key).1, st (cache_paths key).2)

/-- Atomicity contract asserted by the spec for `store_cache`: however the
store's operation sequence is interleaved with a reader, the reader's
view of the entry is always either the pre-store pair or the post-store
pair — never a partially-written pair. -/
def atomicStore (key : String) (op_df : List OperationRecord)
    (state_df : List StateChangeRecord) : Prop :=
  ∀ (init : FsState) (n : Nat),
    pairView (applyFsOps init ((store_cache key op_df state_df).take n)) key
        = pairView init key ∨
    pairView (applyFsOps init ((store_cache key op_df state_df).take n)) key
        = pairView (applyFsOps init (store_cache key op_df state_df)) key

/-! Fetch entry points (`src/application/use_cases.py`,
`src/infrastructure/excel_repository.py`, `src/interface/notebook.py`). -/

/-- Errors surfaced by the fetch path: the `ValueError`s of the mandatory
argument checks, `FileNotFoundError` when no input file matches, and the
merge errors of `build_merged_dataset`. -/
inductive FetchError where
  | missingContractIds
  | missingStartDate
  | sourceNotFound
  | merge (e : MergeError)
deriving DecidableEq, Repr

/-- External source as seen by `ExcelLogRepository.fetch_range`: the
input files found by `list_input_files`, and the two typed sheets that
`pd.read_excel` yields for the lexicographically-last file. -/
structure RepoSource where
  files : List String
  opTable : List OperationRecord
  stateTable : List StateChangeRecord

/-- Model of `ExcelLogRepository.fetch_range` (excel_repository.py
41-132).  Steps in source order: the two `None` argument checks
(`start_date` first); `list_input_files` must be non-empty; the cache
lookup's outcome is the `cached` argument (the key computation is modeled
by `build_cache_key_input`); on a hit (a tuple is always truthy) the
cached pair is matched directly; on a miss the sheets are filtered by
`ContractId.isin(contract_ids)` and by the closed date range, then
matched.  `store_cache` is a side effect modeled separately by its
operation trace; the env-derived column lists only affect which columns
are read, which the typed rows already fix. -/
def fetch_range (hk : MatchKey → Nat) (envTolerance : Option Int)
    (source : RepoSource)
    (cached : Option (List OperationRecord × List StateChangeRecord))
    (contract_ids : Option (List String)) (start_date : Option Int)
    (end_date : Option Int := none) : Except FetchError (List MergedRow) :=
  match start_date with
  | none => .error .missingStartDate
  | some start =>
    match contract_ids with
    | none => .error .missingContractIds
    | some ids =>
      if source.files.isEmpty then .error .sourceNotFound
      else
        match cached with
        | some (op_df, state_df) =>
            (build_merged_dataset hk envTolerance op_df state_df).mapError .merge
        | none =>
            let op1 := source.opTable.filter (fun o => decide (o.contract_id ∈ ids))
            let st1 := source.stateTable.filter (fun s => decide (s.contract_id ∈ ids))
            let op2 := op1.filter (fun o => decide (start ≤ o.order_receipt_date))
            let st2 := st1.filter (fun s => decide (start ≤ s.reported_date))
            let op3 := match end_date with
              | some e => op2.filter (fun o => decide (o.order_receipt_date ≤ e))
              | none => op2
            let st3 := match end_date with
              | some e => st2.filter (fun s => decide (s.reported_date ≤ e))
              | none => st2
            (build_merged_dataset hk envTolerance op3 st3).mapError .merge

namespace LoadLogsUseCase

/-- Model of `LoadLogsUseCase.execute` (use_cases.py 25-66): `start_date`
then `contract_ids` are checked against `None`; an oversized id list only
emits a `ResourceWarning` (non-fatal, not modeled); then the repository's
`fetch_range` runs. -/
def execute (hk : MatchKey → Nat) (envTolerance : Option Int)
    (source : RepoSource)
    (cached : Option (List OperationRecord × List StateChangeRecord))
    (contract_ids : Option (List String)) (start_date : Option Int)
    (end_date : Option Int := none) : Except FetchError (List MergedRow) :=
  match start_date with
  | none => .error .missingStartDate
  | some _ =>
    match contract_ids with
    | none => .error .missingContractIds
    | some _ =>
        fetch_range hk envTolerance source cached contract_ids start_date end_date

end LoadLogsUseCase

/-- Model of `load_for_notebook` (notebook.py 8-34): `contract_ids` then
`start_date` are checked against `None`, then the use case runs against
the Excel repository. -/
def load_for_notebook (hk : MatchKey → Nat) (envTolerance : Option Int)
    (source : RepoSource)
    (cached : Option (List OperationRecord × List StateChangeRecord))
    (contract_ids : Option (List String)) (start_date : Option Int)
    (end_date : Option Int := none) : Except FetchError (List MergedRow) :=
  match contract_ids with
  | none => .error .missingContractIds
  | some _ =>
    match start_date with
    | none => .error .missingStartDate
    | some _ =>
        LoadLogsUseCase.execute hk envTolerance source cached contract_ids
          start_date end_date

/-! Concrete sample data used to instantiate the theorems (the spec's
section-8 scenario: key `(C1, F1, R1, T1, E1, P1, PN1, PV1)`, status event
at epoch second 0, operation events 120 s before and 600 s after). -/

/-- Status event at second 0 with the scenario key. -/
def sampleState : StateChangeRecord :=
  ⟨some "M1", "C1", 0, some "F1", some "R1", some "T1", some "E1",
   some "P1", some "PN1", some "PV1"⟩

/-- Status event at second 10, same key. -/
def sampleStateLater : StateChangeRecord :=
  { sampleState with reported_date := 10 }

/-- Status event at second 5 in a different room (different key). -/
def sampleStateOtherRoom : StateChangeRecord :=
  { sampleState with room_name := some "R2", reported_date := 5 }

/-- Operation event 120 s before `sampleState`, same key. -/
def sampleOpEarly : OperationRecord :=
  ⟨"C1", -120, none, some "F1", some "R1", some "T1", some "E1",
   some "P1", some "PN1", some "PV1"⟩

/-- Operation event 600 s after `sampleState`, same key. -/
def sampleOpLate : OperationRecord :=
  { sampleOpEarly with order_receipt_date := 600 }

/-- Degenerate hash: sound stand-in for `hash_pandas_object` on inputs
whose rows all share one composite key. -/
def constHash : MatchKey → Nat := fun _ => 0

/-- Hash distinguishing the scenario key from every other key: sound
stand-in for `hash_pandas_object` on inputs with at most these two keys. -/
def splitHash : MatchKey → Nat :=
  fun k => if k = sampleState.matchKey then 0 else 1

/-! Helper lemmas. -/

/-- Propositional version of `nearerThan`: strictly preferred candidate. -/
def nearLt (ts a b : Int) : Prop :=
  absDiff a ts < absDiff b ts ∨ (absDiff a ts = absDiff b ts ∧ a < b)

/-- Weak preference between candidates: nearer to `ts`, or equally near
and not later. -/
def nearLe (ts a b : Int) : Prop :=
  absDiff a ts < absDiff b ts ∨ (absDiff a ts = absDiff b ts ∧ a ≤ b)

lemma nearerThan_iff {ts a b : Int} : nearerThan ts a b = true ↔ nearLt ts a b := by
  simp [nearerThan, nearLt]

lemma nearLe_refl (ts a : Int) : nearLe ts a a := Or.inr ⟨rfl, le_refl a⟩

lemma nearLe_trans {ts a b c : Int} (h1 : nearLe ts a b) (h2 : nearLe ts b c) :
    nearLe ts a c := by
  rcases h1 with h1 | ⟨h1, h1le⟩ <;> rcases h2 with h2 | ⟨h2, h2le⟩
  · exact Or.inl (h1.trans h2)
  · exact Or.inl (h2 ▸ h1)
  · exact Or.inl (h1 ▸ h2)
  · exact Or.inr ⟨h1.trans h2, h1le.trans h2le⟩

lemma nearLe_of_nearLt {ts a b : Int} (h : nearLt ts a b) : nearLe ts a b := by
  rcases h with h | ⟨h, hlt⟩
  · exact Or.inl h
  · exact Or.inr ⟨h, le_of_lt hlt⟩

lemma nearLe_of_not_nearLt {ts a b : Int} (h : ¬ nearLt ts a b) : nearLe ts b a := by
  unfold nearLt at h
  by_cases heq : absDiff a ts = absDiff b ts
  · refine Or.inr ⟨heq.symm, ?_⟩
    by_contra hba
    exact h (Or.inr ⟨heq, by omega⟩)
  · refine Or.inl ?_
    by_contra hlt
    exact h (Or.inl (by omega))

lemma foldl_pick_mem (ts : Int) (l : List Int) (best : Int) :
    l.foldl (fun b c => if nearerThan ts c b then c else b) best ∈ best :: l := by
  induction l generalizing best with
  | nil => simp
  | cons c l ih =>
      simp only [List.foldl_cons]
      by_cases hb : nearerThan ts c best = true
      · rw [if_pos hb]
        rcases List.mem_cons.mp (ih c) with h | h
        · rw [h]
          exact List.mem_cons_of_mem _ (List.mem_cons_self _ _)
        · exact List.mem_cons_of_mem _ (List.mem_cons_of_mem _ h)
      · rw [if_neg hb]
        rcases List.mem_cons.mp (ih best) with h | h
        · rw [h]
          exact List.mem_cons_self _ _
        · exact List.mem_cons_of_mem _ (List.mem_cons_of_mem _ h)

lemma foldl_pick_le (ts : Int) (l : List Int) (best : Int) :
    ∀ u ∈ best :: l,
      nearLe ts (l.foldl (fun b c => if nearerThan ts c b then c else b) best) u := by
  induction l generalizing best with
  | nil =>
      intro u hu
      rcases List.mem_cons.mp hu with h | h
      · exact h ▸ nearLe_refl ts best
      · cases h
  | cons c l ih =>
      intro u hu
      simp only [List.foldl_cons]
      by_cases hb : nearerThan ts c best = true
      · rw [if_pos hb]
        have hcb : nearLe ts c best := nearLe_of_nearLt (nearerThan_iff.mp hb)
        rcases List.mem_cons.mp hu with h | h
        · exact h ▸ nearLe_trans (ih c c (List.mem_cons_self _ _)) hcb
        · rcases List.mem_cons.mp h with h2 | h2
          · exact h2 ▸ ih c c (List.mem_cons_self _ _)
          · exact ih c u (List.mem_cons_of_mem _ h2)
      · rw [if_neg hb]
        have hbc : nearLe ts best c :=
          nearLe_of_not_nearLt (fun hcontra => hb (nearerThan_iff.mpr hcontra))
        rcases List.mem_cons.mp hu with h | h
        · exact h ▸ ih best best (List.mem_cons_self _ _)
        · rcases List.mem_cons.mp h with h2 | h2
          · exact h2 ▸ nearLe_trans (ih best best (List.mem_cons_self _ _)) hbc
          · exact ih best u (List.mem_cons_of_mem _ h2)

lemma pickNearest_mem {ts : Int} {l : List Int} {m : Int}
    (h : pickNearest ts l = some m) : m ∈ l := by
  cases l with
  | nil => simp [pickNearest] at h
  | cons t rest =>
      simp only [pickNearest, Option.some.injEq] at h
      exact h ▸ foldl_pick_mem ts rest t

lemma pickNearest_min {ts : Int} {l : List Int} {m : Int}
    (h : pickNearest ts l = some m) : ∀ u ∈ l, nearLe ts m u := by
  cases l with
  | nil => simp [pickNearest] at h
  | cons t rest =>
      simp only [pickNearest, Option.some.injEq] at h
      exact h ▸ foldl_pick_le ts rest t

lemma pickNearest_eq_none {ts : Int} {l : List Int}
    (h : pickNearest ts l = none) : l = [] := by
  cases l with
  | nil => rfl
  | cons t rest => simp [pickNearest] at h

/-- Inversion of a successful `build_merged_dataset` call. -/
lemma build_ok_elim {hk : MatchKey → Nat} {envTolerance tolerance_minutes : Option Int}
    {operation_df : List OperationRecord} {state_df : List StateChangeRecord}
    {rows : List MergedRow}
    (h : build_merged_dataset hk envTolerance operation_df state_df tolerance_minutes
      = .ok rows) :
    0 ≤ resolveToleranceMinutes tolerance_minutes envTolerance ∧
    rows = (stSortedOf hk state_df).map
      (matchStatus hk
        (resolveToleranceMinutes tolerance_minutes envTolerance * 60).toNat
        (opSortedOf hk operation_df)) := by
  unfold build_merged_dataset at h
  split_ifs at h with h1 h2 h3
  all_goals
    first
      | exact Except.noConfusion h
      | (injection h with h4; exact ⟨not_lt.mp h1, h4.symm⟩)

lemma absDiff_comm (a b : Int) : absDiff a b = absDiff b a := by
  unfold absDiff
  omega

lemma matchStatus_eq_of_pick_none {hk : MatchKey → Nat} {tolSec : Nat}
    {opRows : List OperationRecord} {s : StateChangeRecord}
    (hpick : pickNearest s.reported_date (candidateTimes hk opRows s) = none) :
    matchStatus hk tolSec opRows s = unmatchedRow s := by
  unfold matchStatus
  rw [hpick]

lemma matchStatus_eq_of_pick_some {hk : MatchKey → Nat} {tolSec : Nat}
    {opRows : List OperationRecord} {s : StateChangeRecord} {t : Int}
    (hpick : pickNearest s.reported_date (candidateTimes hk opRows s) = some t) :
    matchStatus hk tolSec opRows s =
      if absDiff s.reported_date t ≤ tolSec then
        { unmatchedRow s with
            order_receipt_date := some t
            time_diff_seconds := some (absDiff s.reported_date t)
            is_remote_operation := true }
      else unmatchedRow s := by
  unfold matchStatus
  rw [hpick]

lemma matchStatus_matchKey (hk : MatchKey → Nat) (tolSec : Nat)
    (opRows : List OperationRecord) (s : StateChangeRecord) :
    (matchStatus hk tolSec opRows s).matchKey = s.matchKey := by
  cases hpick : pickNearest s.reported_date (candidateTimes hk opRows s) with
  | none =>
      rw [matchStatus_eq_of_pick_none hpick]
      all_goals rfl
  | some t =>
      rw [matchStatus_eq_of_pick_some hpick]
      by_cases hle : absDiff s.reported_date t ≤ tolSec
      · rw [if_pos hle]
        all_goals rfl
      · rw [if_neg hle]
        all_goals rfl

lemma matchStatus_reported (hk : MatchKey → Nat) (tolSec : Nat)
    (opRows : List OperationRecord) (s : StateChangeRecord) :
    (matchStatus hk tolSec opRows s).reported_date = s.reported_date := by
  cases hpick : pickNearest s.reported_date (candidateTimes hk opRows s) with
  | none =>
      rw [matchStatus_eq_of_pick_none hpick]
      all_goals rfl
  | some t =>
      rw [matchStatus_eq_of_pick_some hpick]
      by_cases hle : absDiff s.reported_date t ≤ tolSec
      · rw [if_pos hle]
        all_goals rfl
      · rw [if_neg hle]
        all_goals rfl

lemma matchStatus_matched_elim {hk : MatchKey → Nat} {tolSec : Nat}
    {opRows : List OperationRecord} {s : StateChangeRecord} {t : Int}
    (h : (matchStatus hk tolSec opRows s).order_receipt_date = some t) :
    t ∈ candidateTimes hk opRows s ∧ absDiff s.reported_date t ≤ tolSec ∧
    ∀ u ∈ candidateTimes hk opRows s, nearLe s.reported_date t u := by
  cases hpick : pickNearest s.reported_date (candidateTimes hk opRows s) with
  | none =>
      rw [matchStatus_eq_of_pick_none hpick] at h
      exact absurd h (by simp [unmatchedRow])
  | some t2 =>
      rw [matchStatus_eq_of_pick_some hpick] at h
      by_cases hle : absDiff s.reported_date t2 ≤ tolSec
      · rw [if_pos hle] at h
        simp only [Option.some.injEq] at h
        subst h
        exact ⟨pickNearest_mem hpick, hle, pickNearest_min hpick⟩
      · rw [if_neg hle] at h
        exact absurd h (by simp [unmatchedRow])

lemma matchStatus_unmatched_elim {hk : MatchKey → Nat} {tolSec : Nat}
    {opRows : List OperationRecord} {s : StateChangeRecord}
    (h : (matchStatus hk tolSec opRows s).order_receipt_date = none) :
    ∀ u ∈ candidateTimes hk opRows s, tolSec < absDiff s.reported_date u := by
  cases hpick : pickNearest s.reported_date (candidateTimes hk opRows s) with
  | none =>
      rw [pickNearest_eq_none hpick]
      intro u hu
      cases hu
  | some t2 =>
      rw [matchStatus_eq_of_pick_some hpick] at h
      by_cases hle : absDiff s.reported_date t2 ≤ tolSec
      · rw [if_pos hle] at h
        exact absurd h (by simp)
      · intro u hu
        have hmin := pickNearest_min hpick u hu
        have hle2 : absDiff t2 s.reported_date ≤ absDiff u s.reported_date := by
          rcases hmin with hm | ⟨hm, _⟩
          · exact le_of_lt hm
          · exact le_of_eq hm
        rw [absDiff_comm s.reported_date u]
        rw [absDiff_comm s.reported_date t2] at hle
        omega

lemma candidateTimes_mem {hk : MatchKey → Nat} {opRows : List OperationRecord}
    {s : StateChangeRecord} {t : Int} :
    t ∈ candidateTimes hk opRows s ↔
      ∃ o ∈ opRows, hk o.matchKey = hk s.matchKey ∧ o.order_receipt_date = t := by
  unfold candidateTimes
  simp only [List.mem_map, List.mem_filter, beq_iff_eq]
  constructor
  · rintro ⟨o, ⟨ho, hkey⟩, ht⟩
    exact ⟨o, ho, hkey, ht⟩
  · rintro ⟨o, ho, hkey, ht⟩
    exact ⟨o, ⟨ho, hkey⟩, ht⟩

lemma candidateTimes_sorted_mem {hk : MatchKey → Nat}
    {operation_df : List OperationRecord} {s : StateChangeRecord} {t : Int} :
    t ∈ candidateTimes hk (opSortedOf hk operation_df) s ↔
      ∃ o ∈ operation_df, hk o.matchKey = hk s.matchKey ∧ o.order_receipt_date = t := by
  rw [candidateTimes_mem]
  constructor
  · rintro ⟨o, ho, rest⟩
    exact ⟨o, (List.perm_insertionSort _ operation_df).mem_iff.mp ho, rest⟩
  · rintro ⟨o, ho, rest⟩
    exact ⟨o, (List.perm_insertionSort _ operation_df).mem_iff.mpr ho, rest⟩

lemma stSorted_mem {hk : MatchKey → Nat} {state_df : List StateChangeRecord}
    {s : StateChangeRecord} :
    s ∈ stSortedOf hk state_df ↔ s ∈ state_df :=
  (List.perm_insertionSort _ state_df).mem_iff

/-! Claim theorems. -/

/-- C5: for every input pair and hash, calling `build_merged_dataset` with
a negative resolved tolerance — whether passed as the `tolerance_minutes`
argument or resolved from `MERGE_TOLERANCE_MINUTES` — fails with the
tolerance configuration error (pandas validates the tolerance while the
merge operation is constructed, before looking at any row), and never
returns a dataset. -/
theorem c5_negative_tolerance_is_error (hk : MatchKey → Nat)
    (envTolerance tolerance_minutes : Option Int)
    (operation_df : List OperationRecord) (state_df : List StateChangeRecord)
    (h : resolveToleranceMinutes tolerance_minutes envTolerance < 0) :
    build_merged_dataset hk envTolerance operation_df state_df tolerance_minutes
      = .error .toleranceMustBePositive := by
  unfold build_merged_dataset
  rw [if_pos h]

/-- Witness for C5: tolerance −1 as argument on the scenario data, and
tolerance −3 resolved from the environment. -/
theorem c5_negative_tolerance_is_error_witness :
    (resolveToleranceMinutes (some (-1)) none < 0 ∧
      build_merged_dataset constHash none [sampleOpEarly] [sampleState] (some (-1))
        = .error .toleranceMustBePositive) ∧
    (resolveToleranceMinutes none (some (-3)) < 0 ∧
      build_merged_dataset constHash (some (-3)) [sampleOpEarly] [sampleState] none
        = .error .toleranceMustBePositive) :=
  ⟨⟨by decide,
    c5_negative_tolerance_is_error constHash none (some (-1)) [sampleOpEarly]
      [sampleState] (by decide)⟩,
   ⟨by decide,
    c5_negative_tolerance_is_error constHash (some (-3)) none [sampleOpEarly]
      [sampleState] (by decide)⟩⟩

/-- C1 (the claim fails on the code): `build_merged_dataset` sorts each
frame by `(_k, timestamp)` and then calls `pd.merge_asof(..., by="_k")`,
which requires the `on` column to be globally monotone and raises
`ValueError("left keys must be sorted")` otherwise.  For the status rows
`[key A at 0 s, key A at 10 s, key B at 5 s]` — two distinct composite
keys with interleaved timestamps, the normal shape of real multi-equipment
logs — the sorted status frame has non-monotone timestamps under either
ordering of the two hash values, so the call raises instead of returning
the three-row dataset the claim requires.  `hne` states that the two
distinct keys do not collide under the hash. -/
theorem c1_interleaved_partitions_crash (hk : MatchKey → Nat)
    (hne : hk sampleState.matchKey ≠ hk sampleStateOtherRoom.matchKey) :
    build_merged_dataset hk none [sampleOpEarly]
      [sampleState, sampleStateLater, sampleStateOtherRoom] (some 5)
      = .error .leftKeysMustBeSorted := by
  unfold build_merged_dataset
  rw [if_neg (by decide : ¬ resolveToleranceMinutes (some 5) none < 0)]
  have hmono : ¬ monotoneTimes
      ((stSortedOf hk [sampleState, sampleStateLater, sampleStateOtherRoom]).map
        (·.reported_date)) = true := by
    rcases Nat.lt_or_ge (hk sampleState.matchKey) (hk sampleStateOtherRoom.matchKey)
      with hlt | hge
    · have h1 : hashTimeLe hk StateChangeRecord.matchKey (·.reported_date)
          sampleStateLater sampleStateOtherRoom := Or.inl hlt
      have h2 : hashTimeLe hk StateChangeRecord.matchKey (·.reported_date)
          sampleState sampleStateLater := Or.inr ⟨rfl, by decide⟩
      have hsorted : stSortedOf hk [sampleState, sampleStateLater, sampleStateOtherRoom]
          = [sampleState, sampleStateLater, sampleStateOtherRoom] := by
        unfold stSortedOf
        simp only [List.insertionSort, List.orderedInsert]
        rw [if_pos h1]
        simp only [List.orderedInsert]
        rw [if_pos h2]
      rw [hsorted]
      decide
    · have hgt : hk sampleStateOtherRoom.matchKey < hk sampleState.matchKey :=
        lt_of_le_of_ne hge (fun e => hne e.symm)
      have h1 : ¬ hashTimeLe hk StateChangeRecord.matchKey (·.reported_date)
          sampleStateLater sampleStateOtherRoom := by
        rintro (h | ⟨h, _⟩)
        · exact absurd h (Nat.lt_asymm hgt)
        · exact hne h
      have h2 : ¬ hashTimeLe hk StateChangeRecord.matchKey (·.reported_date)
          sampleState sampleStateOtherRoom := by
        rintro (h | ⟨h, _⟩)
        · exact absurd h (Nat.lt_asymm hgt)
        · exact hne h
      have h3 : hashTimeLe hk StateChangeRecord.matchKey (·.reported_date)
          sampleState sampleStateLater := Or.inr ⟨rfl, by decide⟩
      have hsorted : stSortedOf hk [sampleState, sampleStateLater, sampleStateOtherRoom]
          = [sampleStateOtherRoom, sampleState, sampleStateLater] := by
        unfold stSortedOf
        simp only [List.insertionSort, List.orderedInsert]
        rw [if_neg h1]
        simp only [List.orderedInsert]
        rw [if_neg h2, if_pos h3]
      rw [hsorted]
      decide
  rw [if_pos hmono]

/-- Witness for C1: the crash realized at a concrete hash assigning the
two keys distinct values, as `hash_pandas_object` does whenever the two
distinct key tuples do not collide. -/
theorem c1_interleaved_partitions_crash_witness :
    build_merged_dataset splitHash none [sampleOpEarly]
      [sampleState, sampleStateLater, sampleStateOtherRoom] (some 5)
      = .error .leftKeysMustBeSorted :=
  c1_interleaved_partitions_crash splitHash (by decide)

/-- Auxiliary for C3: in a returned dataset, a matched row's operation
timestamp is realized by an operation row whose composite key equals the
row's status-side composite key (assuming no hash collision between keys
present in the two inputs). -/
lemma c3_matched_key_aux {hk : MatchKey → Nat}
    {envTolerance tolerance_minutes : Option Int}
    {operation_df : List OperationRecord} {state_df : List StateChangeRecord}
    {rows : List MergedRow}
    (h : build_merged_dataset hk envTolerance operation_df state_df tolerance_minutes
      = .ok rows)
    (hInj : ∀ o ∈ operation_df, ∀ s ∈ state_df,
      hk o.matchKey = hk s.matchKey → o.matchKey = s.matchKey) :
    ∀ r ∈ rows, ∀ t, r.order_receipt_date = some t →
      ∃ o ∈ operation_df, o.order_receipt_date = t ∧ o.matchKey = r.matchKey := by
  obtain ⟨htol, hrows⟩ := build_ok_elim h
  subst hrows
  intro r hr t ht
  obtain ⟨s, hs, rfl⟩ := List.mem_map.mp hr
  have hsd : s ∈ state_df := stSorted_mem.mp hs
  obtain ⟨hmem, hle, hmin⟩ := matchStatus_matched_elim ht
  obtain ⟨o, ho, hkey, htime⟩ := candidateTimes_sorted_mem.mp hmem
  refine ⟨o, ho, htime, ?_⟩
  rw [matchStatus_matchKey]
  exact hInj o ho s hsd hkey

/-- Auxiliary for C3: if the only operation row was matched to the only
status row, changing one composite-key component of that operation row
(to a value whose hash also differs from the status row's) leaves the
status row unmatched. -/
lemma c3_perturb_aux (hk : MatchKey → Nat)
    (envTolerance tolerance_minutes : Option Int)
    (o o' : OperationRecord) (s : StateChangeRecord) (r : MergedRow)
    (h : build_merged_dataset hk envTolerance [o] [s] tolerance_minutes = .ok [r])
    (hmatched : r.is_remote_operation = true) (i : Fin 8)
    (hchg : o'.matchKey.component i ≠ o.matchKey.component i)
    (hsame : ∀ j : Fin 8, j ≠ i → o'.matchKey.component j = o.matchKey.component j)
    (htime : o'.order_receipt_date = o.order_receipt_date)
    (hnc : hk o'.matchKey ≠ hk s.matchKey) :
    build_merged_dataset hk envTolerance [o'] [s] tolerance_minutes
      = .ok [unmatchedRow s] ∧ (unmatchedRow s).is_remote_operation = false := by
  obtain ⟨htol, -⟩ := build_ok_elim h
  refine ⟨?_, rfl⟩
  have hcand : candidateTimes hk [o'] s = [] := by
    unfold candidateTimes
    simp [hnc]
  have hpick : pickNearest s.reported_date (candidateTimes hk [o'] s) = none := by
    rw [hcand]
    rfl
  unfold build_merged_dataset
  rw [if_neg (not_lt.mpr htol)]
  rw [if_neg (fun hc => hc rfl), if_neg (fun hc => hc rfl)]
  simp only [List.map]
  rw [show opSortedOf hk [o'] = [o'] from rfl]
  rw [matchStatus_eq_of_pick_none hpick]

/-- C3: (1) a status row can only be matched to an operation row whose
composite key — all 8 attributes with missing values normalized to the
empty string — equals the status row's key (stated over any returned
dataset, under the hypothesis that the hash does not collide between keys
of the two inputs, which is how `hash_pandas_object` behaves short of a
(about 2^-64)-probability collision); and (2) if exactly one operation row
was matched to a status row, changing any one of its 8 key attributes
makes that status row unmatched. -/
theorem c3_partition_isolation :
    (∀ (hk : MatchKey → Nat) (envTolerance tolerance_minutes : Option Int)
        (operation_df : List OperationRecord) (state_df : List StateChangeRecord)
        (rows : List MergedRow),
      build_merged_dataset hk envTolerance operation_df state_df tolerance_minutes
          = .ok rows →
      (∀ o ∈ operation_df, ∀ s ∈ state_df,
          hk o.matchKey = hk s.matchKey → o.matchKey = s.matchKey) →
      ∀ r ∈ rows, ∀ t, r.order_receipt_date = some t →
        ∃ o ∈ operation_df, o.order_receipt_date = t ∧ o.matchKey = r.matchKey) ∧
    (∀ (hk : MatchKey → Nat) (envTolerance tolerance_minutes : Option Int)
        (o o' : OperationRecord) (s : StateChangeRecord) (r : MergedRow),
      build_merged_dataset hk envTolerance [o] [s] tolerance_minutes = .ok [r] →
      r.is_remote_operation = true →
      ∀ i : Fin 8,
        o'.matchKey.component i ≠ o.matchKey.component i →
        (∀ j : Fin 8, j ≠ i → o'.matchKey.component j = o.matchKey.component j) →
        o'.order_receipt_date = o.order_receipt_date →
        hk o'.matchKey ≠ hk s.matchKey →
        build_merged_dataset hk envTolerance [o'] [s] tolerance_minutes
            = .ok [unmatchedRow s] ∧
          (unmatchedRow s).is_remote_operation = false) :=
  ⟨fun _ _ _ _ _ _ h hInj => c3_matched_key_aux h hInj,
   fun hk e tm o o' s r h hm i hchg hsame htime hnc =>
     c3_perturb_aux hk e tm o o' s r h hm i hchg hsame htime hnc⟩

/-- Witness for C3: part (1) instantiated at the spec scenario (the
matched −120 s operation shares the status row's key), and part (2) at
the same scenario with the operation's room changed to `R2` (the status
row becomes unmatched). -/
theorem c3_partition_isolation_witness :
    (∃ o ∈ [sampleOpEarly], o.order_receipt_date = -120 ∧
        o.matchKey
          = (matchStatus constHash 300 [sampleOpEarly] sampleState).matchKey) ∧
    (build_merged_dataset splitHash none
          [{ sampleOpEarly with room_name := some "R2" }] [sampleState] (some 5)
        = .ok [unmatchedRow sampleState] ∧
      (unmatchedRow sampleState).is_remote_operation = false) :=
  ⟨c3_partition_isolation.1 constHash none (some 5) [sampleOpEarly] [sampleState]
      [matchStatus constHash 300 [sampleOpEarly] sampleState] (by rfl) (by decide)
      (matchStatus constHash 300 [sampleOpEarly] sampleState)
      (List.mem_singleton.mpr rfl) (-120) (by rfl),
   c3_partition_isolation.2 splitHash none (some 5) sampleOpEarly
      { sampleOpEarly with room_name := some "R2" } sampleState
      (matchStatus splitHash 300 [sampleOpEarly] sampleState) (by rfl) (by rfl)
      2 (by decide) (by decide) rfl (by decide)⟩

/-- C2: in every row of a dataset returned by `build_merged_dataset`,
`is_remote_operation` holds iff the matched operation timestamp
(`OrderReceiptDate`) is non-null, iff `time_diff_seconds` is non-null;
and a non-null `time_diff_seconds` is at most the resolved tolerance in
seconds. -/
theorem c2_matched_invariant (hk : MatchKey → Nat)
    (envTolerance tolerance_minutes : Option Int)
    (operation_df : List OperationRecord) (state_df : List StateChangeRecord)
    (rows : List MergedRow)
    (h : build_merged_dataset hk envTolerance operation_df state_df tolerance_minutes
      = .ok rows) :
    ∀ r ∈ rows,
      (r.is_remote_operation = true ↔ r.order_receipt_date.isSome = true) ∧
      (r.is_remote_operation = true ↔ r.time_diff_seconds.isSome = true) ∧
      ∀ d, r.time_diff_seconds = some d →
        (d : Int) ≤ resolveToleranceMinutes tolerance_minutes envTolerance * 60 := by
  obtain ⟨htol, hrows⟩ := build_ok_elim h
  subst hrows
  intro r hr
  obtain ⟨s, hs, rfl⟩ := List.mem_map.mp hr
  have htolcast :
      ((resolveToleranceMinutes tolerance_minutes envTolerance * 60).toNat : Int)
        = resolveToleranceMinutes tolerance_minutes envTolerance * 60 :=
    Int.toNat_of_nonneg (by omega)
  unfold matchStatus
  cases hpick : pickNearest s.reported_date
      (candidateTimes hk (opSortedOf hk operation_df) s) with
  | none => simp [unmatchedRow]
  | some t =>
      by_cases hle : absDiff s.reported_date t
          ≤ (resolveToleranceMinutes tolerance_minutes envTolerance * 60).toNat
      · simp only [if_pos hle]
        refine ⟨by simp, by simp, ?_⟩
        intro d hd
        simp only [Option.some.injEq] at hd
        rw [← hd, ← htolcast]
        exact_mod_cast hle
      · simp only [if_neg hle]
        simp [unmatchedRow]

/-- Witness for C2: the spec scenario (tolerance 5 min, operations 120 s
before and 600 s after the status event) matched to the nearer operation
at distance 120 s ≤ 300 s. -/
theorem c2_matched_invariant_witness :
    ((matchStatus constHash 300 [sampleOpEarly, sampleOpLate] sampleState).is_remote_operation
        = true
      ↔ (matchStatus constHash 300 [sampleOpEarly, sampleOpLate]
          sampleState).order_receipt_date.isSome = true) ∧
    ((matchStatus constHash 300 [sampleOpEarly, sampleOpLate] sampleState).is_remote_operation
        = true
      ↔ (matchStatus constHash 300 [sampleOpEarly, sampleOpLate]
          sampleState).time_diff_seconds.isSome = true) ∧
    ∀ d, (matchStatus constHash 300 [sampleOpEarly, sampleOpLate]
          sampleState).time_diff_seconds = some d →
      (d : Int) ≤ resolveToleranceMinutes (some 5) none * 60 :=
  c2_matched_invariant constHash none (some 5) [sampleOpEarly, sampleOpLate]
    [sampleState] _ (by rfl) _ (List.mem_singleton.mpr rfl)

/-- C4: in a returned dataset every output row is the per-status-row asof
result in sorted order (first conjunct), and for each status row the
selection is nearest-in-time within its own key partition, ties broken by
the earlier timestamp, never beyond the tolerance; a status row is left
unmatched exactly when every operation row of its partition lies beyond
the tolerance (in particular when the partition is empty).  `hInj` rules
out hash collisions between keys of the two inputs. -/
theorem c4_nearest_earliest_within_tolerance (hk : MatchKey → Nat)
    (envTolerance tolerance_minutes : Option Int)
    (operation_df : List OperationRecord) (state_df : List StateChangeRecord)
    (rows : List MergedRow)
    (h : build_merged_dataset hk envTolerance operation_df state_df tolerance_minutes
      = .ok rows)
    (hInj : ∀ o ∈ operation_df, ∀ s ∈ state_df,
      hk o.matchKey = hk s.matchKey → o.matchKey = s.matchKey) :
    rows = (stSortedOf hk state_df).map
      (matchStatus hk
        (resolveToleranceMinutes tolerance_minutes envTolerance * 60).toNat
        (opSortedOf hk operation_df)) ∧
    ∀ s ∈ state_df,
      (∀ t, (matchStatus hk
            (resolveToleranceMinutes tolerance_minutes envTolerance * 60).toNat
            (opSortedOf hk operation_df) s).order_receipt_date = some t →
        (∃ o ∈ operation_df, o.matchKey = s.matchKey ∧ o.order_receipt_date = t) ∧
        ((absDiff s.reported_date t : Int)
          ≤ resolveToleranceMinutes tolerance_minutes envTolerance * 60) ∧
        ∀ o ∈ operation_df, o.matchKey = s.matchKey →
          absDiff s.reported_date t < absDiff s.reported_date o.order_receipt_date ∨
          (absDiff s.reported_date t = absDiff s.reported_date o.order_receipt_date ∧
            t ≤ o.order_receipt_date)) ∧
      ((matchStatus hk
            (resolveToleranceMinutes tolerance_minutes envTolerance * 60).toNat
            (opSortedOf hk operation_df) s).order_receipt_date = none →
        ∀ o ∈ operation_df, o.matchKey = s.matchKey →
          resolveToleranceMinutes tolerance_minutes envTolerance * 60
            < (absDiff s.reported_date o.order_receipt_date : Int)) := by
  obtain ⟨htol, hrows⟩ := build_ok_elim h
  have htolcast :
      ((resolveToleranceMinutes tolerance_minutes envTolerance * 60).toNat : Int)
        = resolveToleranceMinutes tolerance_minutes envTolerance * 60 :=
    Int.toNat_of_nonneg (by omega)
  refine ⟨hrows, ?_⟩
  intro s hs
  constructor
  · intro t ht
    obtain ⟨hmem, hle, hmin⟩ := matchStatus_matched_elim ht
    obtain ⟨o, ho, hkey, htime⟩ := candidateTimes_sorted_mem.mp hmem
    refine ⟨⟨o, ho, hInj o ho s hs hkey, htime⟩, ?_, ?_⟩
    · rw [← htolcast]
      exact_mod_cast hle
    · intro o2 ho2 hkey2
      have hu : o2.order_receipt_date
          ∈ candidateTimes hk (opSortedOf hk operation_df) s :=
        candidateTimes_sorted_mem.mpr ⟨o2, ho2, congrArg hk hkey2, rfl⟩
      rcases hmin _ hu with hm | ⟨hm, hm2⟩
      · left
        rw [absDiff_comm s.reported_date t,
          absDiff_comm s.reported_date o2.order_receipt_date]
        exact hm
      · right
        rw [absDiff_comm s.reported_date t,
          absDiff_comm s.reported_date o2.order_receipt_date]
        exact ⟨hm, hm2⟩
  · intro hnone o2 ho2 hkey2
    have hu : o2.order_receipt_date
        ∈ candidateTimes hk (opSortedOf hk operation_df) s :=
      candidateTimes_sorted_mem.mpr ⟨o2, ho2, congrArg hk hkey2, rfl⟩
    have hgt := matchStatus_unmatched_elim hnone _ hu
    rw [← htolcast]
    exact_mod_cast hgt

/-- Witness for C4: the spec scenario — status at 0 s, candidates at
−120 s and +600 s in the same partition, tolerance 300 s — selects the
−120 s operation: it is in the partition, within tolerance, and strictly
nearer than (or equally near and earlier than) every other candidate. -/
theorem c4_nearest_earliest_within_tolerance_witness :
    (∃ o ∈ [sampleOpEarly, sampleOpLate],
        o.matchKey = sampleState.matchKey ∧ o.order_receipt_date = -120) ∧
    ((absDiff sampleState.reported_date (-120) : Int)
      ≤ resolveToleranceMinutes (some 5) none * 60) ∧
    ∀ o ∈ [sampleOpEarly, sampleOpLate], o.matchKey = sampleState.matchKey →
      absDiff sampleState.reported_date (-120)
          < absDiff sampleState.reported_date o.order_receipt_date ∨
      (absDiff sampleState.reported_date (-120)
          = absDiff sampleState.reported_date o.order_receipt_date ∧
        (-120 : Int) ≤ o.order_receipt_date) :=
  ((c4_nearest_earliest_within_tolerance constHash none (some 5)
      [sampleOpEarly, sampleOpLate] [sampleState] _ (by rfl) (by decide)).2
    sampleState (List.mem_singleton.mpr rfl)).1 (-120) (by rfl)

/-- C6: omitting `contract_ids` or omitting `start_date` (passing `None`)
makes each public fetch operation — `load_for_notebook`,
`LoadLogsUseCase.execute`, `ExcelLogRepository.fetch_range` — fail with
the corresponding mandatory-argument `ValueError` (the spec's
`MissingArgument`), for every source and cache state: the checks run
before any data is touched, so the result does not depend on the source
at all. -/
theorem c6_missing_argument_errors :
    ∀ (hk : MatchKey → Nat) (envTolerance : Option Int) (source : RepoSource)
      (cached : Option (List OperationRecord × List StateChangeRecord))
      (contract_ids : List String) (start_date end_date : Option Int) (sd : Int),
      load_for_notebook hk envTolerance source cached none start_date end_date
          = .error .missingContractIds ∧
      load_for_notebook hk envTolerance source cached (some contract_ids) none end_date
          = .error .missingStartDate ∧
      LoadLogsUseCase.execute hk envTolerance source cached (some contract_ids) none
          end_date = .error .missingStartDate ∧
      LoadLogsUseCase.execute hk envTolerance source cached none (some sd) end_date
          = .error .missingContractIds ∧
      fetch_range hk envTolerance source cached (some contract_ids) none end_date
          = .error .missingStartDate ∧
      fetch_range hk envTolerance source cached none (some sd) end_date
          = .error .missingContractIds :=
  fun _ _ _ _ _ _ _ _ => ⟨rfl, rfl, rfl, rfl, rfl, rfl⟩

/-- C8: when both cache files of an entry exist but either cannot be read
(corruption), `load_cached` deletes both files of the stale entry and
returns `None` to its caller; no branch propagates the failure (the model
of `load_cached` is a total function precisely because the source catches
every read failure and swallows `OSError` from `unlink`). -/
theorem c8_cache_corruption_recovered (opFile : Option (Except Unit (List OperationRecord)))
    (stateFile : Option (Except Unit (List StateChangeRecord)))
    (opC : Except Unit (List OperationRecord))
    (stC : Except Unit (List StateChangeRecord))
    (hop : opFile = some opC) (hst : stateFile = some stC)
    (hbad : opC = .error () ∨ stC = .error ()) :
    load_cached ⟨opFile, stateFile⟩ = (none, ⟨none, none⟩) := by
  subst hop
  subst hst
  rcases hbad with hb | hb
  · subst hb
    cases stC <;> rfl
  · subst hb
    cases opC <;> rfl

/-- Witness for C8: an entry whose operation file exists but is corrupt
while its status file reads back fine — the pair is dropped and both
files are deleted. -/
theorem c8_cache_corruption_recovered_witness :
    load_cached ⟨some (.error ()), some (.ok [sampleState])⟩ = (none, ⟨none, none⟩) :=
  c8_cache_corruption_recovered (some (.error ())) (some (.ok [sampleState]))
    (.error ()) (.ok [sampleState]) rfl rfl (Or.inl rfl)

/-- C9 counterexample (the claim fails on the code): `store_cache` is not
atomic. A reader that interleaves after the first of the two writes — the
trace prefix of length 1, starting from an empty cache directory —
observes the new operation file beside a missing status file: a
partially-written pair that is neither the pre-store nor the post-store
view of the entry. -/
theorem c9_store_not_atomic_counterexample :
    ¬ atomicStore "k" [sampleOpEarly] [] := by
  intro hat
  rcases hat (fun _ => none) 1 with hc | hc
  · exact absurd hc (by decide)
  · exact absurd hc (by decide)

/-- C9 amended: `store_cache` persists the pair by two sequential
in-place writes to the final cache paths (`op_df.to_parquet(op_path)`
then `state_df.to_parquet(state_path)`); its trace contains no rename and
no temporary location, so nothing shields a concurrent reader from the
intermediate state between the writes. -/
theorem c9_store_writes_in_place :
    ∀ (key : String) (op_df : List OperationRecord)
      (state_df : List StateChangeRecord),
      store_cache key op_df state_df
          = [FsOp.write (cache_paths key).1 (.opData op_df),
             FsOp.write (cache_paths key).2 (.stateData state_df)] ∧
      ∀ op ∈ store_cache key op_df state_df, op.isRename = false := by
  intro key op_df state_df
  refine ⟨rfl, ?_⟩
  intro op hop
  rcases List.mem_cons.mp hop with h | h
  · subst h
    rfl
  · rcases List.mem_cons.mp h with h2 | h2
    · subst h2
      rfl
    · cases h2

lemma pyStrTimestamp_injective : Function.Injective pyStrTimestamp := by
  intro a b h
  have hd := congrArg String.data h
  simp only [pyStrTimestamp] at hd
  rw [List.cons.injEq] at hd
  obtain ⟨hsign, hrep⟩ := hd
  have hlen := congrArg List.length hrep
  simp only [List.length_replicate] at hlen
  by_cases ha : 0 ≤ a <;> by_cases hb : 0 ≤ b
  · omega
  · rw [if_pos ha, if_neg hb] at hsign
    exact absurd hsign (by decide)
  · rw [if_neg ha, if_pos hb] at hsign
    exact absurd hsign (by decide)
  · omega

lemma pyStrTimestamp_ne_latest (t : Int) : pyStrTimestamp t ≠ "<end=latest>" := by
  intro h
  have hd := congrArg (fun s => s.data.head?) h
  simp only [pyStrTimestamp] at hd
  have hlatest : "<end=latest>".data.head? = some '<' := by decide
  rw [hlatest] at hd
  simp only [List.head?, Option.some.injEq] at hd
  by_cases ht : 0 ≤ t
  · rw [if_pos ht] at hd
    exact absurd hd (by decide)
  · rw [if_neg ht] at hd
    exact absurd hd (by decide)

/-- C7 counterexample (the sensitivity half of the claim fails on the
code): `build_cache_key` hashes `",".join(operation_cols + state_cols)`,
so moving a column from the head of `state_cols` to the tail of
`operation_cols` yields the same fingerprint input — hence the same
SHA-256 key — although both requested column lists changed. -/
theorem c7_cache_key_collision_counterexample :
    build_cache_key_input "p" 0 ["A", "B"] ["C"] ["x"] 0 none
        = build_cache_key_input "p" 0 ["A"] ["B", "C"] ["x"] 0 none ∧
    (["A", "B"] ≠ ["A"] ∧ ["C"] ≠ ["B", "C"]) :=
  ⟨rfl, by decide, by decide⟩

/-- C7 amended: the cache-key fingerprint input is unchanged under any
permutation of `contract_ids` (the ids are sorted before hashing), and it
does change whenever `start_date` changes or `end_date` changes (all
other arguments fixed); sensitivity to the requested column lists and to
`contract_ids` as lists does not hold in general (see the
counterexample). -/
theorem c7_cache_key_amended :
    (∀ (latest_path : String) (mtime_ns : Nat)
        (operation_cols state_cols ids1 ids2 : List String)
        (start_date : Int) (end_date : Option Int),
      ids1.Perm ids2 →
      build_cache_key_input latest_path mtime_ns operation_cols state_cols ids1
          start_date end_date
        = build_cache_key_input latest_path mtime_ns operation_cols state_cols ids2
          start_date end_date) ∧
    (∀ (latest_path : String) (mtime_ns : Nat)
        (operation_cols state_cols contract_ids : List String)
        (s1 s2 : Int) (end_date : Option Int),
      s1 ≠ s2 →
      build_cache_key_input latest_path mtime_ns operation_cols state_cols
          contract_ids s1 end_date
        ≠ build_cache_key_input latest_path mtime_ns operation_cols state_cols
          contract_ids s2 end_date) ∧
    (∀ (latest_path : String) (mtime_ns : Nat)
        (operation_cols state_cols contract_ids : List String)
        (start_date : Int) (e1 e2 : Option Int),
      e1 ≠ e2 →
      build_cache_key_input latest_path mtime_ns operation_cols state_cols
          contract_ids start_date e1
        ≠ build_cache_key_input latest_path mtime_ns operation_cols state_cols
          contract_ids start_date e2) := by
  refine ⟨?_, ?_, ?_⟩
  · intro latest_path mtime_ns operation_cols state_cols ids1 ids2 start_date
      end_date h
    have hs : List.insertionSort (· ≤ ·) ids1 = List.insertionSort (· ≤ ·) ids2 :=
      List.eq_of_perm_of_sorted
        ((List.perm_insertionSort _ ids1).trans
          (h.trans (List.perm_insertionSort _ ids2).symm))
        (List.sorted_insertionSort _ _) (List.sorted_insertionSort _ _)
    unfold build_cache_key_input
    rw [hs]
  · intro latest_path mtime_ns operation_cols state_cols contract_ids s1 s2
      end_date hne heq
    apply hne
    unfold build_cache_key_input at heq
    have hd := congrArg String.data heq
    simp only [String.data_append] at hd
    have h2 := List.append_cancel_right hd
    have h3 := List.append_cancel_left h2
    exact pyStrTimestamp_injective (String.ext h3)
  · intro latest_path mtime_ns operation_cols state_cols contract_ids start_date
      e1 e2 hne heq
    unfold build_cache_key_input at heq
    have hd := congrArg String.data heq
    simp only [String.data_append] at hd
    have h2 := List.append_cancel_left hd
    cases e1 with
    | none =>
        cases e2 with
        | none => exact hne rfl
        | some b => exact pyStrTimestamp_ne_latest b (String.ext h2.symm)
    | some a =>
        cases e2 with
        | none => exact pyStrTimestamp_ne_latest a (String.ext h2)
        | some b => exact hne (congrArg some (pyStrTimestamp_injective (String.ext h2)))

/-- Witness for C7 (amended): the fingerprint input is unchanged when
`["y", "x"]` is permuted to `["x", "y"]`, changes when the start instant
moves from 3 to 4, and changes when the end bound moves from explicit 5
to absent. -/
theorem c7_cache_key_amended_witness :
    build_cache_key_input "p" 7 ["A"] ["B"] ["y", "x"] 3 none
        = build_cache_key_input "p" 7 ["A"] ["B"] ["x", "y"] 3 none ∧
    build_cache_key_input "p" 7 ["A"] ["B"] ["x"] 3 none
        ≠ build_cache_key_input "p" 7 ["A"] ["B"] ["x"] 4 none ∧
    build_cache_key_input "p" 7 ["A"] ["B"] ["x"] 3 (some 5)
        ≠ build_cache_key_input "p" 7 ["A"] ["B"] ["x"] 3 none :=
  ⟨c7_cache_key_amended.1 "p" 7 ["A"] ["B"] ["y", "x"] ["x", "y"] 3 none
      (by decide),
   c7_cache_key_amended.2.1 "p" 7 ["A"] ["B"] ["x"] 3 4 none (by decide),
   c7_cache_key_amended.2.2 "p" 7 ["A"] ["B"] ["x"] 3 (some 5) none (by decide)⟩

lemma build_empty_ok (hk : MatchKey → Nat)
    (envTolerance tolerance_minutes : Option Int)
    (htol : 0 ≤ resolveToleranceMinutes tolerance_minutes envTolerance) :
    build_merged_dataset hk envTolerance [] [] tolerance_minutes = .ok [] := by
  unfold build_merged_dataset
  rw [if_neg (not_lt.mpr htol)]
  rw [if_neg (fun hc => hc rfl), if_neg (fun hc => hc rfl)]
  rfl

/-- C10 (implicit): an empty `contract_ids` list passes the `None`-only
argument checks of `execute` and `fetch_range`; on a cache miss the
`ContractId.isin([])` filter removes every operation and status row, and
the call returns the empty merged dataset (zero rows) without error. -/
theorem c10_empty_contract_ids_zero_rows (hk : MatchKey → Nat)
    (envTolerance : Option Int) (source : RepoSource) (sd : Int)
    (end_date : Option Int) (hfiles : source.files ≠ [])
    (htol : 0 ≤ resolveToleranceMinutes none envTolerance) :
    LoadLogsUseCase.execute hk envTolerance source none (some []) (some sd)
      end_date = .ok [] := by
  have hempty : source.files.isEmpty = false := by
    cases hsf : source.files with
    | nil => exact absurd hsf hfiles
    | cons a l => rfl
  unfold LoadLogsUseCase.execute fetch_range
  simp only [hempty, Bool.false_eq_true, if_false, List.not_mem_nil,
    decide_False, List.filter_false, List.filter_nil]
  cases end_date with
  | none =>
      rw [build_empty_ok hk envTolerance none htol]
      rfl
  | some e =>
      simp only [List.filter_nil]
      rw [build_empty_ok hk envTolerance none htol]
      rfl

/-- Witness for C10: a one-file source whose tables hold the scenario
rows still yields the empty dataset when `contract_ids = []`. -/
theorem c10_empty_contract_ids_zero_rows_witness :
    LoadLogsUseCase.execute constHash none
      ⟨["data.xlsx"], [sampleOpEarly, sampleOpLate], [sampleState]⟩ none
      (some []) (some 0) none = .ok [] :=
  c10_empty_contract_ids_zero_rows constHash none
    ⟨["data.xlsx"], [sampleOpEarly, sampleOpLate], [sampleState]⟩ 0 none
    (by decide) (by decide)

end ValueFromLog